import Mathlib

/-!
Verification of the measurement-file series loader of the `inet` plotting
scripts (src/scripts/tcp_plotting.py, tcp_plotting2.py, tcp_plotting3.py).
All three scripts repeat the same parse loop verbatim:

    lines = raw_data.split("\n")
    x = []
    y = []
    for line in lines:
        if line.startswith("#"):
            continue
        split = line.split("=")
        if len(split) != 2:
            continue
        x.append(float(split[0].strip()))
        y.append(float(split[1].strip()))

We embed the file content as a list of characters (a Python string is a
sequence of code points) and the parse loop as explicit state passing.
Numeric values are modelled as rationals; the decimal literals appearing in
measurement files are parsed exactly.
-/

/-- A character is Python whitespace for the purpose of str.strip():
space, tab, newline, carriage return, vertical tab, form feed
(ASCII fragment of Python's Unicode whitespace). -/
def pyIsSpace (c : Char) : Bool :=
  c == ' ' || c == '\t' || c == '\n' || c == '\r' || c == '\x0b' || c == '\x0c'

/-- Python str.split(sep) for a one-character separator: splits at every
occurrence of the separator, keeping empty segments; the empty string
yields one empty segment, as in Python. -/
def pySplitOn (sep : Char) : List Char → List (List Char)
  | [] => [[]]
  | c :: cs =>
    let r := pySplitOn sep cs
    if c == sep then [] :: r
    else
      match r with
      | [] => [[c]]
      | h :: t => (c :: h) :: t

/-- Python str.strip(): remove whitespace from both ends. -/
def pyStrip (cs : List Char) : List Char :=
  ((cs.dropWhile pyIsSpace).reverse.dropWhile pyIsSpace).reverse

/-- Numeric value of a list of decimal digit characters, most significant
first (value of the empty list is 0, used only where Python's float grammar
permits an absent digit group). -/
def digitsVal (l : List Char) : Nat :=
  l.foldl (fun a c => 10 * a + (c.toNat - 48)) 0

/-- Consume an optional leading sign; returns (isNegative, rest). -/
def parseSign : List Char → Bool × List Char
  | '-' :: r => (true, r)
  | '+' :: r => (false, r)
  | cs => (false, cs)

/-- Consume an unsigned decimal mantissa: digits, an optional point with
further digits; at least one digit must be present on one of the two
sides. Returns the mantissa as a scaled integer — a pair (m, k) denoting
the value m / 10 ^ k — together with the unconsumed rest. -/
def parseMantissa (cs : List Char) : Option ((Nat × Nat) × List Char) :=
  let (ip, rest) := cs.span Char.isDigit
  match rest with
  | '.' :: r2 =>
    let (fp, r3) := r2.span Char.isDigit
    if ip.isEmpty && fp.isEmpty then none
    else some ((digitsVal ip * 10 ^ fp.length + digitsVal fp, fp.length), r3)
  | _ =>
    if ip.isEmpty then none
    else some ((digitsVal ip, 0), rest)

/-- Python's float(str) builtin on finite decimal literals: optional sign,
decimal mantissa, optional exponent part; the whole string must be
consumed. The exact value is returned as a rational (the idealization of
the IEEE-754 value the builtin produces). The special spellings
inf/infinity/nan and digit-group underscores, which never occur in
measurement files, are not modelled; surrounding whitespace is irrelevant
because every call site strips first. Returns none exactly when Python
raises ValueError. -/
def parseFloat (s : List Char) : Option ℚ :=
  let (neg, cs1) := parseSign s
  match parseMantissa cs1 with
  | none => none
  | some ((m, k), rest) =>
    let sgn : Int := if neg then -1 else 1
    match rest with
    | [] => some (mkRat (sgn * m) (10 ^ k))
    | e :: cs3 =>
      if e == 'e' || e == 'E' then
        let (eneg, cs4) := parseSign cs3
        let (ed, cs5) := cs4.span Char.isDigit
        if ed.isEmpty || !cs5.isEmpty then none
        else if eneg then some (mkRat (sgn * m) (10 ^ k * 10 ^ digitsVal ed))
        else some (mkRat (sgn * m * 10 ^ digitsVal ed) (10 ^ k))
      else none

/-- The loader's mutable state: the two parallel lists x and y. -/
structure PState where
  x : List ℚ
  y : List ℚ
deriving DecidableEq, Repr

/-- One iteration of the parse loop on one line, in Python evaluation
order: the comment test first, then the split and the two-part guard, then
the x-segment is stripped, parsed and appended, and only then the
y-segment. A float failure raises, carrying the state as it stands at that
moment (in particular the x value of the failing line is already appended
when the y-segment is the one that fails). -/
def stepLine (st : PState) (line : List Char) : Except PState PState :=
  if List.isPrefixOf ['#'] line then Except.ok st
  else
    match pySplitOn '=' line with
    | [a, b] =>
      match parseFloat (pyStrip a) with
      | none => Except.error st
      | some u =>
        match parseFloat (pyStrip b) with
        | none => Except.error { x := st.x ++ [u], y := st.y }
        | some v => Except.ok { x := st.x ++ [u], y := st.y ++ [v] }
    | _ => Except.ok st

/-- The parse loop over the list of lines: left to right, stopping at the
first float failure (the unguarded exception aborts the loop). -/
def runLines : PState → List (List Char) → Except PState PState
  | st, [] => Except.ok st
  | st, l :: ls =>
    match stepLine st l with
    | Except.ok st' => runLines st' ls
    | Except.error e => Except.error e

/-- loadSeries on a file content: split the raw text on newlines and run
the parse loop from the empty state. -/
def loadSeriesContent (raw : List Char) : Except PState PState :=
  runLines ⟨[], []⟩ (pySplitOn '\n' raw)

/-- Errors of the full load: the open() call fails (file missing or
unreadable), or a float() call fails inside the loop. -/
inductive LoadError where
  | resourceNotFound
  | parseFailure (st : PState)
deriving DecidableEq, Repr

/-- The full loadSeries: a file system is a partial map from paths to
contents; open() is attempted before the two lists exist, so a missing
path fails with no series state at all. -/
def loadSeries (fs : String → Option (List Char)) (path : String) :
    Except LoadError PState :=
  match fs path with
  | none => Except.error LoadError.resourceNotFound
  | some raw =>
    match loadSeriesContent raw with
    | Except.ok st => Except.ok st
    | Except.error st => Except.error (LoadError.parseFailure st)

/-- A line is accepted when it is not a comment and splits on the
separator into exactly two parts. -/
def isAccepted (l : List Char) : Bool :=
  !(List.isPrefixOf ['#'] l) && (pySplitOn '=' l).length == 2

/-- The accepted data lines of a file content, in order. -/
def acceptedLines (raw : List Char) : List (List Char) :=
  (pySplitOn '\n' raw).filter isAccepted

/-- The (x, y) pair an accepted data line denotes, when both stripped
segments parse as floats. -/
def lineToPair (l : List Char) : Option (ℚ × ℚ) :=
  match pySplitOn '=' l with
  | [a, b] =>
    match parseFloat (pyStrip a), parseFloat (pyStrip b) with
    | some u, some v => some (u, v)
    | _, _ => none
  | _ => none

/-- A line that makes the loader raise a parse error: not a comment,
exactly two parts after the split, and at least one stripped segment is
not a float literal. -/
def badLine (l : List Char) : Bool :=
  !(List.isPrefixOf ['#'] l) &&
    (match pySplitOn '=' l with
     | [a, b] => (parseFloat (pyStrip a)).isNone || (parseFloat (pyStrip b)).isNone
     | _ => false)

deriving instance DecidableEq for Except

/-- A line that is a comment, or whose split does not have exactly two
parts, leaves the state untouched and raises nothing. -/
lemma stepLine_not_accepted (st : PState) (l : List Char) (h : isAccepted l = false) :
    stepLine st l = Except.ok st := by
  unfold isAccepted at h
  unfold stepLine
  cases hp : List.isPrefixOf ['#'] l
  · simp only [hp, Bool.false_eq_true, if_false]
    rcases hsp : pySplitOn '=' l with _ | ⟨a, _ | ⟨b, _ | _⟩⟩ <;>
      first
        | rfl
        | (rw [hp, hsp] at h; simp at h)
  · simp [hp]

/-- On an accepted line, the step is determined by the two parsed
segments, in Python evaluation order. -/
lemma stepLine_accepted (st : PState) (l a b : List Char)
    (hp : List.isPrefixOf ['#'] l = false) (hsp : pySplitOn '=' l = [a, b]) :
    stepLine st l =
      match parseFloat (pyStrip a) with
      | none => Except.error st
      | some u =>
        match parseFloat (pyStrip b) with
        | none => Except.error { x := st.x ++ [u], y := st.y }
        | some v => Except.ok { x := st.x ++ [u], y := st.y ++ [v] } := by
  unfold stepLine
  simp only [hp, Bool.false_eq_true, if_false, hsp]

/-- Every step either keeps the state, appends one element to each list,
or fails with the state as it stands (the x side possibly one element
ahead). -/
lemma stepLine_cases (st : PState) (l : List Char) :
    stepLine st l = Except.ok st ∨
    (∃ u v, stepLine st l = Except.ok { x := st.x ++ [u], y := st.y ++ [v] }) ∨
    stepLine st l = Except.error st ∨
    (∃ u, stepLine st l = Except.error { x := st.x ++ [u], y := st.y }) := by
  cases ha : isAccepted l
  · exact Or.inl (stepLine_not_accepted st l ha)
  · unfold isAccepted at ha
    rcases Bool.and_eq_true _ _ |>.mp ha with ⟨hp, hlen⟩
    rw [Bool.not_eq_eq_eq_not, Bool.not_true] at hp
    rcases List.length_eq_two.mp (by simpa using hlen) with ⟨a, b, hsp⟩
    rw [stepLine_accepted st l a b hp hsp]
    cases parseFloat (pyStrip a) with
    | none => exact Or.inr (Or.inr (Or.inl rfl))
    | some u =>
      cases parseFloat (pyStrip b) with
      | none => exact Or.inr (Or.inr (Or.inr ⟨u, rfl⟩))
      | some v => exact Or.inr (Or.inl ⟨u, v, rfl⟩)

/-- The step fails exactly on a bad line: not a comment, exactly two
parts, and a segment that is not a float literal. -/
lemma stepLine_error_iff (st : PState) (l : List Char) :
    (∃ e, stepLine st l = Except.error e) ↔ badLine l = true := by
  unfold badLine
  cases hp : List.isPrefixOf ['#'] l
  · simp only [hp, Bool.not_false, Bool.true_and]
    rcases hsp : pySplitOn '=' l with _ | ⟨a, _ | ⟨b, _ | _⟩⟩
    · constructor
      · rintro ⟨e, he⟩
        rw [stepLine_not_accepted st l (by unfold isAccepted; rw [hp, hsp]; rfl)] at he
        exact absurd he (by simp)
      · intro h; exact absurd h (by simp)
    · constructor
      · rintro ⟨e, he⟩
        rw [stepLine_not_accepted st l (by unfold isAccepted; rw [hp, hsp]; rfl)] at he
        exact absurd he (by simp)
      · intro h; exact absurd h (by simp)
    · rw [stepLine_accepted st l a b hp hsp]
      cases hpa : parseFloat (pyStrip a) with
      | none => simp [hpa]
      | some u =>
        cases hpb : parseFloat (pyStrip b) with
        | none => simp [hpa, hpb]
        | some v => simp [hpa, hpb]
    · constructor
      · rintro ⟨e, he⟩
        rw [stepLine_not_accepted st l (by unfold isAccepted; rw [hp, hsp]; rfl)] at he
        exact absurd he (by simp)
      · intro h; exact absurd h (by simp)
  · constructor
    · rintro ⟨e, he⟩
      rw [stepLine_not_accepted st l (by unfold isAccepted; rw [hp]; rfl)] at he
      exact absurd he (by simp)
    · intro h; exact absurd h (by simp [hp])

/-- The loop over a concatenation runs the first block, then the second
from the state the first one reached. -/
lemma runLines_append (pre : List (List Char)) :
    ∀ (st : PState) (suf : List (List Char)),
      runLines st (pre ++ suf) =
        match runLines st pre with
        | Except.ok st' => runLines st' suf
        | Except.error e => Except.error e := by
  induction pre with
  | nil => intro st suf; rfl
  | cons l ls ih =>
    intro st suf
    show runLines st (l :: (ls ++ suf)) = _
    simp only [runLines]
    cases stepLine st l with
    | ok st' => exact ih st' suf
    | error e => rfl

/-- Length accounting for the whole loop: started from balanced lists, a
successful run returns balanced lists, and a failing run leaves the x
list at most one element ahead of the y list. -/
lemma runLines_len (lines : List (List Char)) :
    ∀ st0 : PState, st0.x.length = st0.y.length →
      (∀ st, runLines st0 lines = Except.ok st → st.x.length = st.y.length) ∧
      (∀ st, runLines st0 lines = Except.error st →
        st.y.length ≤ st.x.length ∧ st.x.length ≤ st.y.length + 1) := by
  induction lines with
  | nil =>
    intro st0 h0
    refine ⟨fun st hst => ?_, fun st hst => ?_⟩
    · cases hst; exact h0
    · cases hst
  | cons l ls ih =>
    intro st0 h0
    rcases stepLine_cases st0 l with hc | ⟨u, v, hc⟩ | hc | ⟨u, hc⟩
    · simpa only [runLines, hc] using ih st0 h0
    · have h1 : (PState.mk (st0.x ++ [u]) (st0.y ++ [v])).x.length =
          (PState.mk (st0.x ++ [u]) (st0.y ++ [v])).y.length := by
        simp [h0]
      simpa only [runLines, hc] using ih _ h1
    · refine ⟨fun st hst => ?_, fun st hst => ?_⟩ <;>
        simp only [runLines, hc] at hst
      · cases hst
      · cases hst
        omega
    · refine ⟨fun st hst => ?_, fun st hst => ?_⟩ <;>
        simp only [runLines, hc] at hst
      · cases hst
      · cases hst
        simp only [List.length_append, List.length_singleton]
        omega

/-- The loop fails exactly when some line of the input is bad. -/
lemma runLines_error_iff (lines : List (List Char)) :
    ∀ st0 : PState,
      (∃ st, runLines st0 lines = Except.error st) ↔ ∃ l ∈ lines, badLine l = true := by
  induction lines with
  | nil =>
    intro st0
    constructor
    · rintro ⟨st, hst⟩; cases hst
    · rintro ⟨l, hl, _⟩; cases hl
  | cons l ls ih =>
    intro st0
    cases hstep : stepLine st0 l with
    | ok st' =>
      have hbad : badLine l = false := by
        cases hb : badLine l
        · rfl
        · rcases (stepLine_error_iff st0 l).mpr hb with ⟨e, he⟩
          rw [hstep] at he
          cases he
      simp only [runLines, hstep]
      rw [ih st']
      constructor
      · rintro ⟨m, hm, hb⟩
        exact ⟨m, List.mem_cons_of_mem l hm, hb⟩
      · rintro ⟨m, hm, hb⟩
        rcases List.mem_cons.mp hm with rfl | hm'
        · rw [hbad] at hb; cases hb
        · exact ⟨m, hm', hb⟩
    | error e =>
      have hbad : badLine l = true :=
        (stepLine_error_iff st0 l).mp ⟨e, hstep⟩
      simp only [runLines, hstep]
      constructor
      · intro _; exact ⟨l, List.mem_cons_self l ls, hbad⟩
      · intro _; exact ⟨e, rfl⟩

/-- A successful run appends to the starting state exactly the pairs of
the accepted lines, each of which parses, in order. -/
lemma runLines_ok_spec (lines : List (List Char)) :
    ∀ st0 st : PState, runLines st0 lines = Except.ok st →
      ∃ ps : List (ℚ × ℚ),
        (lines.filter isAccepted).mapM lineToPair = some ps ∧
        st.x = st0.x ++ ps.map Prod.fst ∧ st.y = st0.y ++ ps.map Prod.snd := by
  induction lines with
  | nil =>
    intro st0 st hst
    cases hst
    exact ⟨[], rfl, by simp, by simp⟩
  | cons l ls ih =>
    intro st0 st hst
    cases ha : isAccepted l
    · rw [List.filter_cons_of_neg (by simp [ha])]
      have hstep := stepLine_not_accepted st0 l ha
      simp only [runLines, hstep] at hst
      exact ih st0 st hst
    · have ha' := ha
      unfold isAccepted at ha'
      rcases Bool.and_eq_true _ _ |>.mp ha' with ⟨hp, hlen⟩
      rw [Bool.not_eq_eq_eq_not, Bool.not_true] at hp
      rcases List.length_eq_two.mp (by simpa using hlen) with ⟨a, b, hsp⟩
      have hstep := stepLine_accepted st0 l a b hp hsp
      rw [List.filter_cons_of_pos (by simp [ha])]
      cases hpa : parseFloat (pyStrip a) with
      | none =>
        rw [hpa] at hstep
        simp only [runLines, hstep] at hst
        cases hst
      | some u =>
        cases hpb : parseFloat (pyStrip b) with
        | none =>
          rw [hpa, hpb] at hstep
          simp only [runLines, hstep] at hst
          cases hst
        | some v =>
          rw [hpa, hpb] at hstep
          simp only [runLines, hstep] at hst
          rcases ih _ st hst with ⟨ps, hmap, hx, hy⟩
          refine ⟨(u, v) :: ps, ?_, ?_, ?_⟩
          · have hpair : lineToPair l = some (u, v) := by
              unfold lineToPair
              rw [hsp]
              simp [hpa, hpb]
            rw [List.mapM_cons, hpair, hmap]
            rfl
          · simpa using hx
          · simpa using hy

/-- When mapM succeeds, the plain map is the returned list, boxed. -/
lemma map_eq_of_mapM_eq_some {α β : Type} (f : α → Option β) :
    ∀ (l : List α) (r : List β), l.mapM f = some r → l.map f = r.map some := by
  intro l
  induction l with
  | nil =>
    intro r h
    cases h
    rfl
  | cons a t ih =>
    intro r h
    rw [List.mapM_cons] at h
    cases hfa : f a with
    | none => rw [hfa] at h; cases h
    | some b =>
      rw [hfa] at h
      cases hmt : t.mapM f with
      | none => rw [hmt] at h; cases h
      | some rt =>
        rw [hmt] at h
        cases h
        simp [hfa, ih rt hmt]

/-- Zipping the two projections of a list of pairs restores the list. -/
lemma zip_map_fst_snd_eq {α β : Type} :
    ∀ ps : List (α × β), (ps.map Prod.fst).zip (ps.map Prod.snd) = ps := by
  intro ps
  induction ps with
  | nil => rfl
  | cons p t ih => simp [List.zip_cons_cons, ih]

/-- A comment line is dropped before the split is even computed. -/
lemma stepLine_comment (st : PState) (l : List Char)
    (h : List.isPrefixOf ['#'] l = true) : stepLine st l = Except.ok st := by
  unfold stepLine
  simp [h]

/-- A run over comment lines only returns the starting state. -/
lemma runLines_all_comments :
    ∀ (lines : List (List Char)) (st : PState),
      (∀ l ∈ lines, List.isPrefixOf ['#'] l = true) →
      runLines st lines = Except.ok st := by
  intro lines
  induction lines with
  | nil => intro st _; rfl
  | cons l ls ih =>
    intro st hall
    have h1 := stepLine_comment st l (hall l (List.mem_cons_self l ls))
    simp only [runLines, h1]
    exact ih st (fun m hm => hall m (List.mem_cons_of_mem l hm))

/-- C1: for the concrete file whose lines are a header comment, 0.0=1.0,
1.0=2.5, an empty line, and 2.0=3.0, the loader returns exactly
x = [0.0, 1.0, 2.0] and y = [1.0, 2.5, 3.0]; the comment line and the
blank line contribute nothing and raise no error. -/
theorem loadSeriesContent_example_file :
    loadSeriesContent ("# header comment\n0.0=1.0\n1.0=2.5\n\n2.0=3.0".data) =
      Except.ok ⟨[0, 1, 2], [1, mkRat 5 2, 3]⟩ := by decide

/-- C2 (counterexample): on the input 1.0=z the loader fails after having
appended the x value but before appending any y value, so at the state
observable at the failure the two lengths differ — the claimed invariant
does not hold at all times. -/
theorem lengths_differ_at_failure :
    loadSeriesContent ("1.0=z".data) = Except.error { x := [1], y := [] } ∧
    ¬ ({ x := [1], y := [] } : PState).x.length =
        ({ x := [1], y := [] } : PState).y.length := by decide

/-- C2 (amended): a successful load returns sequences of equal length; at
a parse failure the x sequence is never shorter than the y sequence and at
most one element longer, because the x value of the failing line is
appended before the y segment is parsed. -/
theorem series_length_invariant (raw : List Char) :
    (∀ st, loadSeriesContent raw = Except.ok st → st.x.length = st.y.length) ∧
    (∀ st, loadSeriesContent raw = Except.error st →
      st.y.length ≤ st.x.length ∧ st.x.length ≤ st.y.length + 1) :=
  runLines_len (pySplitOn '\n' raw) ⟨[], []⟩ rfl

/-- Witness for the amended C2 at the inputs 1.0=2.0 and 1.0=z. -/
theorem series_length_invariant_witness :
    ([(1 : ℚ)].length = [(2 : ℚ)].length) ∧
    (([] : List ℚ).length ≤ [(1 : ℚ)].length ∧
      [(1 : ℚ)].length ≤ ([] : List ℚ).length + 1) :=
  ⟨(series_length_invariant ("1.0=2.0".data)).1 ⟨[1], [2]⟩ (by decide),
   (series_length_invariant ("1.0=z".data)).2 ⟨[1], []⟩ (by decide)⟩

/-- C3: order preservation — on a successful load, mapping the pair
extraction over the accepted data lines yields exactly the zipped output
pairs in order, however many comments or malformed lines are interleaved:
the i-th accepted line produces the i-th pair. -/
theorem accepted_lines_order_preserved (raw : List Char) (st : PState)
    (h : loadSeriesContent raw = Except.ok st) :
    (acceptedLines raw).map lineToPair = (st.x.zip st.y).map some := by
  rcases runLines_ok_spec (pySplitOn '\n' raw) ⟨[], []⟩ st h with ⟨ps, hmap, hx, hy⟩
  have hmapped := map_eq_of_mapM_eq_some lineToPair _ ps hmap
  unfold acceptedLines
  rw [hmapped, hx, hy]
  simp [zip_map_fst_snd_eq]

/-- Witness for C3 at a one-line file. -/
theorem accepted_lines_order_preserved_witness :
    (acceptedLines ("1.0=2.0".data)).map lineToPair =
      ((PState.mk [1] [2]).x.zip (PState.mk [1] [2]).y).map some :=
  accepted_lines_order_preserved ("1.0=2.0".data) ⟨[1], [2]⟩ (by decide)

/-- C4: skip policy — a non-comment line whose split does not have exactly
two parts appends nothing to either sequence and raises no error, and the
rest of the file is processed as if the line were absent. -/
theorem malformed_line_skipped (l : List Char)
    (h1 : List.isPrefixOf ['#'] l = false)
    (h2 : (pySplitOn '=' l).length ≠ 2) :
    (∀ st, stepLine st l = Except.ok st) ∧
    (∀ st pre suf, runLines st (pre ++ l :: suf) = runLines st (pre ++ suf)) := by
  have hna : isAccepted l = false := by
    unfold isAccepted
    rw [h1]
    simp [h2]
  refine ⟨fun st => stepLine_not_accepted st l hna, fun st pre suf => ?_⟩
  rw [runLines_append, runLines_append]
  cases runLines st pre with
  | ok st' =>
    show runLines st' (l :: suf) = runLines st' suf
    simp only [runLines, stepLine_not_accepted st' l hna]
  | error e => rfl

/-- Witness for C4 at the line a=b=c inside a two-line file. -/
theorem malformed_line_skipped_witness :
    stepLine ⟨[], []⟩ ("a=b=c".data) = Except.ok ⟨[], []⟩ ∧
    runLines ⟨[], []⟩ [("0.5=1".data), ("a=b=c".data), ("2=3".data)] =
      runLines ⟨[], []⟩ [("0.5=1".data), ("2=3".data)] :=
  ⟨(malformed_line_skipped ("a=b=c".data) (by decide) (by decide)).1 ⟨[], []⟩,
   (malformed_line_skipped ("a=b=c".data) (by decide) (by decide)).2
     ⟨[], []⟩ [("0.5=1".data)] [("2=3".data)]⟩

/-- C5: the loader fails with a parse error exactly when some line is not
a comment, splits into exactly two parts, and has a stripped segment that
is not a float literal; the failure is not caught inside the loop and
surfaces to the caller of the full load. -/
theorem parse_error_iff_bad_line (raw : List Char) :
    ((∃ st, loadSeriesContent raw = Except.error st) ↔
      ∃ l ∈ pySplitOn '\n' raw, badLine l = true) ∧
    (∀ fs path st, fs path = some raw → loadSeriesContent raw = Except.error st →
      loadSeries fs path = Except.error (LoadError.parseFailure st)) := by
  refine ⟨runLines_error_iff (pySplitOn '\n' raw) ⟨[], []⟩, ?_⟩
  intro fs path st hfs herr
  simp only [loadSeries, hfs, herr]

/-- Witness for C5 at the file abc=1.0. -/
theorem parse_error_iff_bad_line_witness :
    (∃ st, loadSeriesContent ("abc=1.0".data) = Except.error st) ∧
    loadSeries (fun _ => some ("abc=1.0".data)) "results/client_congestion_window.out" =
      Except.error (LoadError.parseFailure ⟨[], []⟩) :=
  ⟨(parse_error_iff_bad_line ("abc=1.0".data)).1.mpr
      ⟨("abc=1.0".data), by decide, by decide⟩,
   (parse_error_iff_bad_line ("abc=1.0".data)).2
      (fun _ => some ("abc=1.0".data)) "results/client_congestion_window.out"
      ⟨[], []⟩ rfl (by decide)⟩

/-- C6: comment handling — a line beginning with the comment character is
skipped before the split is attempted, contributes nothing and can never
raise even if it contains a separator; a file of only comment lines loads
to two empty sequences. -/
theorem comment_lines_skipped :
    (∀ (st : PState) (l : List Char), List.isPrefixOf ['#'] l = true →
      stepLine st l = Except.ok st) ∧
    (∀ raw : List Char, (∀ l ∈ pySplitOn '\n' raw, List.isPrefixOf ['#'] l = true) →
      loadSeriesContent raw = Except.ok ⟨[], []⟩) :=
  ⟨fun st l h => stepLine_comment st l h,
   fun raw hall => runLines_all_comments (pySplitOn '\n' raw) ⟨[], []⟩ hall⟩

/-- Witness for C6 at the comment line with a separator and at a file of
two comment lines. -/
theorem comment_lines_skipped_witness :
    stepLine ⟨[], []⟩ ("#t=1".data) = Except.ok ⟨[], []⟩ ∧
    loadSeriesContent ("# a\n#t=1".data) = Except.ok ⟨[], []⟩ :=
  ⟨comment_lines_skipped.1 ⟨[], []⟩ ("#t=1".data) (by decide),
   comment_lines_skipped.2 ("# a\n#t=1".data) (by decide)⟩

/-- C7: whitespace insensitivity — the files 1.0 = 2.0 and 1.0=2.0 load to
the identical single pair (1.0, 2.0); in general, on an accepted data line
only the whitespace-stripped segments determine the step, so surrounding
whitespace never changes the resulting pair. -/
theorem whitespace_insensitive :
    (loadSeriesContent ("1.0 = 2.0\n".data) = loadSeriesContent ("1.0=2.0\n".data) ∧
     loadSeriesContent ("1.0=2.0\n".data) = Except.ok ⟨[1], [2]⟩) ∧
    (∀ (st : PState) (l l' a b a' b' : List Char),
      pySplitOn '=' l = [a, b] → pySplitOn '=' l' = [a', b'] →
      List.isPrefixOf ['#'] l = false → List.isPrefixOf ['#'] l' = false →
      pyStrip a = pyStrip a' → pyStrip b = pyStrip b' →
      stepLine st l = stepLine st l') := by
  refine ⟨⟨by decide, by decide⟩, ?_⟩
  intro st l l' a b a' b' hsp hsp' hpl hpl' hta htb
  rw [stepLine_accepted st l a b hpl hsp, stepLine_accepted st l' a' b' hpl' hsp',
    hta, htb]

/-- Witness for the general part of C7 at the two concrete lines. -/
theorem whitespace_insensitive_witness :
    stepLine ⟨[], []⟩ ("1.0 = 2.0".data) = stepLine ⟨[], []⟩ ("1.0=2.0".data) :=
  whitespace_insensitive.2 ⟨[], []⟩ ("1.0 = 2.0".data) ("1.0=2.0".data)
    ("1.0 ".data) (" 2.0".data) ("1.0".data) ("2.0".data)
    (by decide) (by decide) (by decide) (by decide) (by decide) (by decide)

/-- C8: a path the file system cannot provide fails with the
resource-not-found condition; the error carries no series state at all,
since open() runs before the two lists are created, so no partial series
is produced. -/
theorem missing_path_resource_not_found (fs : String → Option (List Char))
    (path : String) (h : fs path = none) :
    loadSeries fs path = Except.error LoadError.resourceNotFound := by
  unfold loadSeries
  rw [h]

/-- Witness for C8 at an empty file system. -/
theorem missing_path_resource_not_found_witness :
    loadSeries (fun _ => none) "results/missing.out" =
      Except.error LoadError.resourceNotFound :=
  missing_path_resource_not_found (fun _ => none) "results/missing.out" rfl

/-- C9: an indented comment is no comment — the line with a space, then
the comment character, then x=1 does not begin with the comment character,
splits into two parts, and its first stripped segment is not a float
literal, so the loader raises a parse error instead of skipping it. -/
theorem indented_comment_parse_error :
    List.isPrefixOf ['#'] (" # x=1".data) = false ∧
    pySplitOn '=' (" # x=1".data) = [(" # x".data), ("1".data)] ∧
    parseFloat (pyStrip (" # x".data)) = none ∧
    loadSeriesContent (" # x=1".data) = Except.error ⟨[], []⟩ := by decide

/-- C10: the load is a pure function of the file's textual content — two
loads over file systems that provide the same content for the requested
paths return identical results, and nothing outside the provided content
enters the result. -/
theorem load_depends_only_on_content (fs1 fs2 : String → Option (List Char))
    (p1 p2 : String) (h : fs1 p1 = fs2 p2) :
    loadSeries fs1 p1 = loadSeries fs2 p2 := by
  unfold loadSeries
  rw [h]

/-- Witness for C10 at two file systems with the same one-line file. -/
theorem load_depends_only_on_content_witness :
    loadSeries (fun _ => some ("1=2".data)) "results/a.out" =
      loadSeries (fun p => if p = "results/b.out" then some ("1=2".data) else none)
        "results/b.out" :=
  load_depends_only_on_content (fun _ => some ("1=2".data))
    (fun p => if p = "results/b.out" then some ("1=2".data) else none)
    "results/a.out" "results/b.out" rfl
